import Mathlib

/-! Shallow embedding of `src/eeg_plotter.py` (EEG/ECG multichannel CSV plotter).

Python strings are modelled as Lean `String`s; the Python string operations
used by the source (`strip`, `startswith`, substring containment via `in`,
`split(',')`, `replace`) are defined below over the underlying character
lists so that all definitions evaluate by kernel reduction.
-/

/-- Python `str.strip()`: drop whitespace from both ends. -/
def strip (s : String) : String :=
  ⟨((s.data.dropWhile Char.isWhitespace).reverse.dropWhile Char.isWhitespace).reverse⟩

/-- Python `s.startswith(p)`. -/
def startsWithStr (p s : String) : Bool :=
  p.data.isPrefixOf s.data

/-- Python `p in s`: substring containment. -/
def substrOf (p s : String) : Bool :=
  s.data.tails.any (fun t => p.data.isPrefixOf t)

/-- Python `s.split(sep)` on the character lists (single-character separator). -/
def splitChar (sep : Char) : List Char → List (List Char)
  | [] => [[]]
  | c :: cs =>
    if c = sep then [] :: splitChar sep cs
    else
      match splitChar sep cs with
      | [] => [[c]]
      | h :: t => (c :: h) :: t

/-- Python `s.split(sep)` returning strings. -/
def pySplit (sep : Char) (s : String) : List String :=
  (splitChar sep s.data).map String.mk

/-- One pass of Python `s.replace(pat, rep)` with explicit fuel (the source
only replaces the fixed non-empty patterns `**` and `:`). -/
def replaceAux (pat rep : List Char) : Nat → List Char → List Char
  | 0, l => l
  | _ + 1, [] => []
  | fuel + 1, c :: cs =>
    if pat.isPrefixOf (c :: cs) then
      rep ++ replaceAux pat rep fuel (List.drop pat.length (c :: cs))
    else
      c :: replaceAux pat rep fuel cs

/-- Python `s.replace(pat, rep)`. -/
def pyReplace (s pat rep : String) : String :=
  ⟨replaceAux pat.data rep.data s.data.length s.data⟩

/-- Column-name normalization from `parse_eeg_csv`:
`col.replace('**', '').replace(':', '_').strip()`. -/
def cleanCol (col : String) : String :=
  strip (pyReplace (pyReplace col "**" "") ":" "_")

/-- The fixed denylist `exclude_cols` of `parse_eeg_csv`. -/
def exclude_cols : List String :=
  ["Trigger", "Time_Offset", "ADC_Status", "ADC_Sequence",
   "Event", "X3_", "Comments", "CMF"]

/-- The retained-channel computation of `parse_eeg_csv`:
`[col for col in columns if col != 'Time' and col not in exclude_cols and col.strip()]`. -/
def computeChannels (cols : List String) : List String :=
  cols.filter (fun col => (col != "Time") && !(exclude_cols.contains col) && !(strip col == ""))

/-- The three category lists returned by `categorize_channels`. -/
structure Categories where
  eeg : List String
  ecg : List String
  reference : List String
deriving DecidableEq, Repr

/-- The ocular-marker test of `categorize_channels`:
`any(x in channel for x in ['X1_LEOG', 'X2_REOG'])`. -/
def eogLike (channel : String) : Bool :=
  ["X1_LEOG", "X2_REOG"].any (fun x => substrOf x channel)

/-- The classifier `categorize_channels`: the loop appends each channel to exactly one of the
three lists according to the priority order ocular-marker / `'CM' in name` /
default; head-first recursion produces the same lists as the Python loop. -/
def categorize_channels : List String → Categories
  | [] => ⟨[], [], []⟩
  | channel :: rest =>
    let c := categorize_channels rest
    if eogLike channel then
      ⟨c.eeg, channel :: c.ecg, c.reference⟩
    else if substrOf "CM" channel then
      ⟨c.eeg, c.ecg, channel :: c.reference⟩
    else
      ⟨channel :: c.eeg, c.ecg, c.reference⟩

theorem categorize_ecg_eq (l : List String) :
    (categorize_channels l).ecg = l.filter eogLike := by
  induction l with
  | nil => rfl
  | cons ch rest ih =>
    by_cases h1 : eogLike ch
    · simp [categorize_channels, h1, List.filter, ih]
    · by_cases h2 : substrOf "CM" ch
      · simp [categorize_channels, h1, h2, List.filter, ih]
      · simp [categorize_channels, h1, h2, List.filter, ih]

theorem categorize_reference_eq (l : List String) :
    (categorize_channels l).reference
      = l.filter (fun ch => !eogLike ch && substrOf "CM" ch) := by
  induction l with
  | nil => rfl
  | cons ch rest ih =>
    by_cases h1 : eogLike ch
    · simp [categorize_channels, h1, List.filter, ih]
    · by_cases h2 : substrOf "CM" ch
      · simp [categorize_channels, h1, h2, List.filter, ih]
      · simp [categorize_channels, h1, h2, List.filter, ih]

theorem categorize_eeg_eq (l : List String) :
    (categorize_channels l).eeg
      = l.filter (fun ch => !eogLike ch && !substrOf "CM" ch) := by
  induction l with
  | nil => rfl
  | cons ch rest ih =>
    by_cases h1 : eogLike ch
    · simp [categorize_channels, h1, List.filter, ih]
    · by_cases h2 : substrOf "CM" ch
      · simp [categorize_channels, h1, h2, List.filter, ih]
      · simp [categorize_channels, h1, h2, List.filter, ih]

/-- C1. Channel classification partitions the retained columns: the three
output lists are the order-preserving sublists selected by the priority rules
(ocular marker → ECG, else `CM` marker → Reference, else EEG), every retained
channel lands in exactly one list, and the concrete example
`["X1_LEOG","X2_REOG","CM_ref","Fp1"]` classifies as
ECG = `["X1_LEOG","X2_REOG"]`, Reference = `["CM_ref"]`, EEG = `["Fp1"]`. -/
theorem categorize_channels_partition (channels : List String) :
    ((categorize_channels channels).ecg = channels.filter eogLike
      ∧ (categorize_channels channels).reference
          = channels.filter (fun ch => !eogLike ch && substrOf "CM" ch)
      ∧ (categorize_channels channels).eeg
          = channels.filter (fun ch => !eogLike ch && !substrOf "CM" ch))
    ∧ ((categorize_channels channels).ecg.Sublist channels
      ∧ (categorize_channels channels).reference.Sublist channels
      ∧ (categorize_channels channels).eeg.Sublist channels)
    ∧ (∀ ch ∈ channels,
        (ch ∈ (categorize_channels channels).ecg
            ∧ ch ∉ (categorize_channels channels).reference
            ∧ ch ∉ (categorize_channels channels).eeg)
        ∨ (ch ∉ (categorize_channels channels).ecg
            ∧ ch ∈ (categorize_channels channels).reference
            ∧ ch ∉ (categorize_channels channels).eeg)
        ∨ (ch ∉ (categorize_channels channels).ecg
            ∧ ch ∉ (categorize_channels channels).reference
            ∧ ch ∈ (categorize_channels channels).eeg))
    ∧ categorize_channels ["X1_LEOG", "X2_REOG", "CM_ref", "Fp1"]
        = { eeg := ["Fp1"], ecg := ["X1_LEOG", "X2_REOG"], reference := ["CM_ref"] } := by
  refine ⟨⟨categorize_ecg_eq channels, categorize_reference_eq channels,
           categorize_eeg_eq channels⟩, ?_, ?_, by decide⟩
  · refine ⟨?_, ?_, ?_⟩
    · rw [categorize_ecg_eq]; exact List.filter_sublist channels
    · rw [categorize_reference_eq]; exact List.filter_sublist channels
    · rw [categorize_eeg_eq]; exact List.filter_sublist channels
  · intro ch hch
    rw [categorize_ecg_eq, categorize_reference_eq, categorize_eeg_eq]
    by_cases h1 : eogLike ch
    · exact Or.inl (by simp [List.mem_filter, hch, h1])
    · by_cases h2 : substrOf "CM" ch
      · exact Or.inr (Or.inl (by simp [List.mem_filter, hch, h1, h2]))
      · exact Or.inr (Or.inr (by simp [List.mem_filter, hch, h1, h2]))

/-- Instantiation of `categorize_channels_partition` on the example column
list: `"CM_ref"` lands in the Reference list and in no other list. -/
theorem categorize_channels_partition_witness :
    ("CM_ref" ∈ (categorize_channels ["X1_LEOG", "X2_REOG", "CM_ref", "Fp1"]).reference
      ∧ "CM_ref" ∉ (categorize_channels ["X1_LEOG", "X2_REOG", "CM_ref", "Fp1"]).ecg
      ∧ "CM_ref" ∉ (categorize_channels ["X1_LEOG", "X2_REOG", "CM_ref", "Fp1"]).eeg) := by
  have h := (categorize_channels_partition
      ["X1_LEOG", "X2_REOG", "CM_ref", "Fp1"]).2.2.1 "CM_ref" (by decide)
  rcases h with ⟨h1, _, _⟩ | ⟨h1, h2, h3⟩ | ⟨_, h2, _⟩
  · exact absurd h1 (by decide)
  · exact ⟨h2, h1, h3⟩
  · exact absurd h2 (by decide)

/-! Metadata scanning (`parse_eeg_csv`, lines 32–49)

The scan loop strips each line, best-effort parses the sample frequency from
lines containing `Sample_Frequency_(Hz)`, and stops at the first line that
starts with `Time,` or `Time<TAB>`.  `parseFloat` models the Python `float()`
builtin on ordinary decimal literals (optional sign, digits, optional
fractional part, optional exponent). -/

def digitVal (c : Char) : Nat := c.toNat - 48

/-- Parse a non-empty all-digit character list into a natural number. -/
def parseNatDigits (cs : List Char) : Option Nat :=
  if cs.isEmpty then none
  else if cs.all (fun c => c.isDigit) then
    some (cs.foldl (fun a c => a * 10 + digitVal c) 0)
  else none

/-- Split a character list at the first `e`/`E` (exponent marker). -/
def splitExp : List Char → List Char × Option (List Char)
  | [] => ([], none)
  | c :: cs =>
    if c = 'e' ∨ c = 'E' then ([], some cs)
    else
      let (m, e) := splitExp cs
      (c :: m, e)

/-- Parse a signed decimal mantissa (digits, optional `.` and digits).
Built with `mkRat` on integer arithmetic so that it evaluates by kernel
reduction. -/
def parseMantissa (cs : List Char) : Option ℚ :=
  let (sign, rest) : ℤ × List Char :=
    match cs with
    | '-' :: r => (-1, r)
    | '+' :: r => (1, r)
    | r => (1, r)
  let ip := rest.takeWhile (fun c => c.isDigit)
  let rest2 := rest.dropWhile (fun c => c.isDigit)
  let ipVal : ℕ := ip.foldl (fun a c => a * 10 + digitVal c) 0
  match rest2 with
  | [] =>
    if ip.isEmpty then none
    else some (mkRat (sign * ipVal) 1)
  | '.' :: fp =>
    if fp.all (fun c => c.isDigit) && !(ip.isEmpty && fp.isEmpty) then
      let fpVal : ℕ := fp.foldl (fun a c => a * 10 + digitVal c) 0
      some (mkRat (sign * (ipVal * 10 ^ fp.length + fpVal)) (10 ^ fp.length))
    else none
  | _ => none

/-- Parse a signed all-digit exponent. -/
def parseExpPart (cs : List Char) : Option ℤ :=
  match cs with
  | '-' :: r => (parseNatDigits r).map (fun n => -(n : ℤ))
  | '+' :: r => (parseNatDigits r).map (fun n => (n : ℤ))
  | r => (parseNatDigits r).map (fun n => (n : ℤ))

/-- Model of Python `float(s)` on decimal literals, as a rational. -/
def parseFloat (s : String) : Option ℚ :=
  let cs := (strip s).data
  match splitExp cs with
  | (m, none) => parseMantissa m
  | (m, some e) =>
    match parseMantissa m, parseExpPart e with
    | some q, some ex =>
      if 0 ≤ ex then some (mkRat (q.num * 10 ^ ex.toNat) q.den)
      else some (mkRat q.num (q.den * 10 ^ (-ex).toNat))
    | _, _ => none

/-- Header recognition of the scan loop: after stripping, the line starts
with `Time,` or `Time<TAB>`. -/
def headerLine (raw : String) : Bool :=
  startsWithStr "Time," (strip raw) || startsWithStr "Time\t" (strip raw)

/-- The sample-frequency update of one scan-loop iteration:
`self.sample_rate = float(line.split(',')[1])` guarded by
`'Sample_Frequency_(Hz)' in line`, with any failure swallowed by the bare
`except: pass`. -/
def updateSampleRate (sr : ℚ) (raw : String) : ℚ :=
  let line := strip raw
  if substrOf "Sample_Frequency_(Hz)" line then
    match (pySplit ',' line)[1]? with
    | some fld =>
      match parseFloat fld with
      | some v => v
      | none => sr
    | none => sr
  else sr

/-- The metadata scan loop of `parse_eeg_csv`: returns the index of the first
header line (if any) and the final sample rate. -/
def scanMeta : List String → ℚ → Nat → Option Nat × ℚ
  | [], sr, _ => (none, sr)
  | l :: ls, sr, i =>
    let sr' := updateSampleRate sr l
    if headerLine l then (some i, sr')
    else scanMeta ls sr' (i + 1)

theorem isPrefixOf_true_iff (p l : List Char) :
    p.isPrefixOf l = true ↔ ∃ r, l = p ++ r := by
  induction p generalizing l with
  | nil => simp [List.isPrefixOf]
  | cons c cs ih =>
    cases l with
    | nil => simp [List.isPrefixOf]
    | cons d ds =>
      constructor
      · intro h
        simp only [List.isPrefixOf, Bool.and_eq_true, beq_iff_eq] at h
        obtain ⟨hcd, h2⟩ := h
        obtain ⟨r, hr⟩ := (ih ds).1 h2
        exact ⟨r, by simp [hcd, hr]⟩
      · rintro ⟨r, hr⟩
        injection hr with h1 h2
        simp only [List.isPrefixOf, Bool.and_eq_true, beq_iff_eq]
        exact ⟨h1.symm, (ih ds).2 ⟨r, h2⟩⟩

theorem startsWithStr_iff (p s : String) :
    startsWithStr p s = true ↔ ∃ r : List Char, s.data = p.data ++ r := by
  unfold startsWithStr
  exact isPrefixOf_true_iff p.data s.data

theorem scanMeta_some (i : Nat) (lines : List String) (sr : ℚ) (k : Nat)
    (h : (scanMeta lines sr k).1 = some i) :
    k ≤ i
    ∧ (∃ l, lines[i - k]? = some l ∧ headerLine l = true)
    ∧ ∀ j l', j + k < i → lines[j]? = some l' → headerLine l' = false := by
  induction lines generalizing sr k with
  | nil => simp [scanMeta] at h
  | cons l ls ih =>
    by_cases hl : headerLine l
    · simp [scanMeta, hl] at h
      subst h
      refine ⟨le_refl _, ⟨l, by simp, hl⟩, ?_⟩
      intro j l' hj
      omega
    · simp only [scanMeta, hl, if_false] at h
      obtain ⟨hk, ⟨l0, hl0, hh0⟩, hprev⟩ := ih (updateSampleRate sr l) (k + 1) h
      refine ⟨by omega, ⟨l0, ?_, hh0⟩, ?_⟩
      · have : i - k = (i - (k + 1)) + 1 := by omega
        rw [this, List.getElem?_cons_succ]
        exact hl0
      · intro j l' hj hget
        cases j with
        | zero =>
          rw [List.getElem?_cons_zero] at hget
          injection hget with hget
          subst hget
          exact Bool.not_eq_true _ ▸ by simpa using hl
        | succ j' =>
          rw [List.getElem?_cons_succ] at hget
          exact hprev j' l' (by omega) hget

/-- C2. Header discovery: a line is recognized as the header exactly when,
after trimming, it starts with `Time` followed immediately by a comma or a
tab; the scan returns the first such line; and on the example input
`["junk", "Sample_Frequency_(Hz),256", "Time,C1,C2,Trigger", "0,1,2,3"]` it
returns header index 2 and sample rate 256.0. -/
theorem header_discovery :
    (∀ l, headerLine l = true ↔
        ((∃ r : List Char, (strip l).data = "Time,".data ++ r)
          ∨ (∃ r : List Char, (strip l).data = "Time\t".data ++ r)))
    ∧ (∀ (lines : List String) (sr : ℚ) (i : Nat),
        (scanMeta lines sr 0).1 = some i →
          (∃ l, lines[i]? = some l ∧ headerLine l = true)
          ∧ ∀ j l', j < i → lines[j]? = some l' → headerLine l' = false)
    ∧ scanMeta ["junk", "Sample_Frequency_(Hz),256", "Time,C1,C2,Trigger", "0,1,2,3"] 200 0
        = (some 2, 256) := by
  refine ⟨?_, ?_, by decide⟩
  · intro l
    unfold headerLine
    rw [Bool.or_eq_true, startsWithStr_iff, startsWithStr_iff]
  · intro lines sr i h
    obtain ⟨_, ⟨l, hl, hh⟩, hprev⟩ := scanMeta_some i lines sr 0 h
    exact ⟨⟨l, by simpa using hl, hh⟩, fun j l' hj hget => hprev j l' (by omega) hget⟩

/-- Instantiation of `header_discovery` on the example input: the line at the
returned index 2 satisfies the header predicate and the earlier line `"junk"`
does not. -/
theorem header_discovery_witness :
    headerLine "Time,C1,C2,Trigger" = true ∧ headerLine "junk" = false := by
  have h := header_discovery.2.1
      ["junk", "Sample_Frequency_(Hz),256", "Time,C1,C2,Trigger", "0,1,2,3"] 200 2 (by decide)
  obtain ⟨⟨l, hl, hh⟩, hprev⟩ := h
  have hidx : (["junk", "Sample_Frequency_(Hz),256", "Time,C1,C2,Trigger",
      "0,1,2,3"] : List String)[2]? = some "Time,C1,C2,Trigger" := by decide
  rw [hidx] at hl
  injection hl with hl
  exact ⟨hl ▸ hh, hprev 0 "junk" (by omega) (by decide)⟩

theorem scanMeta_keeps_sr (lines : List String) (sr : ℚ) (k : Nat)
    (h : ∀ l ∈ lines, substrOf "Sample_Frequency_(Hz)" (strip l) = false) :
    (scanMeta lines sr k).2 = sr := by
  induction lines generalizing sr k with
  | nil => simp [scanMeta]
  | cons l ls ih =>
    have hl := h l (List.mem_cons_self l ls)
    have hup : updateSampleRate sr l = sr := by
      unfold updateSampleRate
      simp [hl]
    by_cases hh : headerLine l
    · simp [scanMeta, hh, hup]
    · simp only [scanMeta, hh, if_false, hup]
      exact ih sr (k + 1) (fun x hx => h x (List.mem_cons_of_mem l hx))

/-- C7. Sample-rate best-effort policy: if no line contains the
sample-frequency label, the scan returns the default rate 200.0; and a line
whose second comma-field is missing or does not parse as a float leaves the
current sample rate unchanged (the bare `except: pass` swallows the error). -/
theorem sample_rate_best_effort :
    (∀ lines : List String,
        (∀ l ∈ lines, substrOf "Sample_Frequency_(Hz)" (strip l) = false) →
        (scanMeta lines 200 0).2 = 200)
    ∧ (∀ (sr : ℚ) (raw fld : String),
        (pySplit ',' (strip raw))[1]? = some fld →
        parseFloat fld = none →
        updateSampleRate sr raw = sr)
    ∧ (∀ (sr : ℚ) (raw : String),
        (pySplit ',' (strip raw))[1]? = none →
        updateSampleRate sr raw = sr) := by
  refine ⟨fun lines h => scanMeta_keeps_sr lines 200 0 h, ?_, ?_⟩
  · intro sr raw fld hfld hparse
    unfold updateSampleRate
    by_cases hlab : substrOf "Sample_Frequency_(Hz)" (strip raw)
    · simp [hlab, hfld, hparse]
    · simp [hlab]
  · intro sr raw hfld
    unfold updateSampleRate
    by_cases hlab : substrOf "Sample_Frequency_(Hz)" (strip raw)
    · simp [hlab, hfld]
    · simp [hlab]

/-- Instantiation of `sample_rate_best_effort`: an input with no
sample-frequency line yields 200.0, and the line
`"Sample_Frequency_(Hz),abc"` (non-numeric second field) keeps the current
rate 200.0. -/
theorem sample_rate_best_effort_witness :
    (scanMeta ["junk", "Time,A,B"] 200 0).2 = 200
    ∧ updateSampleRate 200 "Sample_Frequency_(Hz),abc" = 200 := by
  exact ⟨sample_rate_best_effort.1 ["junk", "Time,A,B"] (by decide),
    sample_rate_best_effort.2.1 200 "Sample_Frequency_(Hz),abc" "abc" (by decide) (by decide)⟩

/-! Column exclusion (`parse_eeg_csv`, lines 59–63) -/

/-- C3 counterexample. The claim says a column is dropped when its name
*contains* any exclusion fragment; but the code tests exact list membership
(`col not in exclude_cols`), so `"X3_A"` — which contains the fragment
`"X3_"`, is not the time column, and has a non-empty trimmed name — is
retained and even reaches the EEG category list. -/
theorem column_exclusion_counterexample :
    substrOf "X3_" "X3_A" = true
    ∧ ("X3_A" : String) ≠ "Time"
    ∧ strip "X3_A" ≠ ""
    ∧ computeChannels ["X3_A"] = ["X3_A"]
    ∧ "X3_A" ∈ (categorize_channels (computeChannels ["X3_A"])).eeg := by
  decide

/-- C3 (amended). Column exclusion with exact matching: a column is
dropped (and then reaches none of the three category lists) if and only if
its name is `"Time"`, is exactly equal to one of the excluded names, or has
an empty trimmed name. -/
theorem column_exclusion_amended :
    ∀ (cols : List String) (col : String), col ∈ cols →
      ((col ∉ computeChannels cols) ↔
        (col = "Time" ∨ col ∈ exclude_cols ∨ strip col = ""))
      ∧ (col ∉ computeChannels cols →
          col ∉ (categorize_channels (computeChannels cols)).eeg
          ∧ col ∉ (categorize_channels (computeChannels cols)).ecg
          ∧ col ∉ (categorize_channels (computeChannels cols)).reference) := by
  intro cols col hcol
  have hmem : col ∈ computeChannels cols ↔
      (col ≠ "Time" ∧ col ∉ exclude_cols ∧ strip col ≠ "") := by
    simp [computeChannels, List.mem_filter, hcol, List.elem_iff, and_assoc]
  constructor
  · rw [hmem]
    constructor
    · intro h
      by_cases h1 : col = "Time"
      · exact Or.inl h1
      · by_cases h2 : col ∈ exclude_cols
        · exact Or.inr (Or.inl h2)
        · by_cases h3 : strip col = ""
          · exact Or.inr (Or.inr h3)
          · exact absurd ⟨h1, h2, h3⟩ h
    · rintro (h1 | h2 | h3) ⟨g1, g2, g3⟩
      · exact g1 h1
      · exact g2 h2
      · exact g3 h3
  · intro hdrop
    rw [categorize_eeg_eq, categorize_ecg_eq, categorize_reference_eq]
    exact ⟨fun h => hdrop (List.mem_of_mem_filter h),
      fun h => hdrop (List.mem_of_mem_filter h),
      fun h => hdrop (List.mem_of_mem_filter h)⟩

/-- Instantiation of `column_exclusion_amended`: `"Trigger"` is dropped from
`["Trigger", "Fp1"]` and reaches none of the three category lists. -/
theorem column_exclusion_amended_witness :
    "Trigger" ∉ computeChannels ["Trigger", "Fp1"]
    ∧ "Trigger" ∉ (categorize_channels (computeChannels ["Trigger", "Fp1"])).eeg
    ∧ "Trigger" ∉ (categorize_channels (computeChannels ["Trigger", "Fp1"])).ecg
    ∧ "Trigger" ∉ (categorize_channels (computeChannels ["Trigger", "Fp1"])).reference := by
  have h := column_exclusion_amended ["Trigger", "Fp1"] "Trigger" (by decide)
  have hdrop := h.1.mpr (Or.inr (Or.inl (by decide)))
  exact ⟨hdrop, h.2 hdrop⟩

/-! Plot layout (`create_interactive_plot`, lines 68–173)

The figure is modelled by the data the claims are about: the selected channel
list, the total canvas height, and one trace record (panel row, channel name,
line color) per plotted channel.  A trace is added only for channels present
in the dataframe columns (`if channel in self.data.columns`). -/

/-- The fixed qualitative palette: `px.colors.qualitative.Set1` followed by
`px.colors.qualitative.Set2` (9 + 8 colors). -/
def colors : List String :=
  ["rgb(228,26,28)", "rgb(55,126,184)", "rgb(77,175,74)", "rgb(152,78,163)",
   "rgb(255,127,0)", "rgb(255,255,51)", "rgb(166,86,40)", "rgb(247,129,191)",
   "rgb(153,153,153)",
   "rgb(102,194,165)", "rgb(252,141,98)", "rgb(141,160,203)", "rgb(231,138,195)",
   "rgb(166,216,84)", "rgb(255,217,47)", "rgb(229,196,148)", "rgb(179,179,179)"]

/-- One plotted trace: subplot row (1-based), channel name, line color. -/
structure Trace where
  row : Nat
  name : String
  color : String
deriving DecidableEq, Repr

/-- The figure data relevant to the claims. -/
structure Fig where
  channels : List String
  height : Nat
  traces : List Trace
deriving DecidableEq, Repr

/-- The plotting order `ordered_channels`: EEG list, then ECG list, then
Reference list. -/
def orderedChannels (channels : List String) : List String :=
  let channel_categories := categorize_channels channels
  channel_categories.eeg ++ channel_categories.ecg ++ channel_categories.reference

/-- The cap `channels_to_plot = ordered_channels[:max_channels] if
max_channels else ordered_channels`; `None` and `0` are both falsy in
Python. -/
def channelsToPlot (ordered : List String) (max_channels : Option Nat) : List String :=
  match max_channels with
  | some m => if m ≠ 0 then ordered.take m else ordered
  | none => ordered

/-- The trace-adding loop: for each index `i` and channel, a trace is added
(on row `i+1`) only when the channel is a dataframe column, with color
`colors[i % len(colors)]`. -/
def buildTraces (channels_to_plot dataCols : List String) : List Trace :=
  channels_to_plot.enum.filterMap (fun p =>
    if dataCols.contains p.2 then
      some { row := p.1 + 1, name := p.2,
             color := colors.getD (p.1 % colors.length) "" }
    else none)

/-- The layout builder `create_interactive_plot`: categorize, order
EEG++ECG++Reference, cap by
`max_channels`, fail on an empty selection, otherwise build the figure with
height `150 * n_channels + 100`. -/
def create_interactive_plot (channels dataCols : List String)
    (max_channels : Option Nat) : Except String Fig :=
  let channels_to_plot := channelsToPlot (orderedChannels channels) max_channels
  if channels_to_plot.length = 0 then
    Except.error "No valid channels found to plot"
  else
    Except.ok
      { channels := channels_to_plot
        height := 150 * channels_to_plot.length + 100
        traces := buildTraces channels_to_plot dataCols }

theorem create_ok (channels dataCols : List String) (mc : Option Nat) (fig : Fig)
    (h : create_interactive_plot channels dataCols mc = Except.ok fig) :
    fig = { channels := channelsToPlot (orderedChannels channels) mc
            height := 150 * (channelsToPlot (orderedChannels channels) mc).length + 100
            traces := buildTraces (channelsToPlot (orderedChannels channels) mc) dataCols } := by
  simp only [create_interactive_plot] at h
  split at h
  · exact absurd h (by simp)
  · injection h with h
    exact h.symm

theorem create_error_iff (channels dataCols : List String) (mc : Option Nat) :
    create_interactive_plot channels dataCols mc = Except.error "No valid channels found to plot"
      ↔ channelsToPlot (orderedChannels channels) mc = [] := by
  simp only [create_interactive_plot]
  split <;> rename_i hlen
  · simp [List.length_eq_zero.mp hlen]
  · constructor
    · intro h
      exact absurd h (by simp)
    · intro h
      exact absurd (h ▸ hlen) (by simp)

/-- C5. Channel-cap selection: the plotted list is the first
`max_channels` entries of the concatenation EEG ++ ECG ++ Reference (all of
them when the cap is null), an empty selection is exactly the fatal
`ValueError "No valid channels found to plot"`, a 40-channel classified set
(25 EEG + 10 ECG + 5 Reference) with cap 30 selects exactly the first 30 in
EEG-then-ECG-then-Reference order, and an input whose signal-like columns
are all excluded raises the empty-channel error when the layout is built. -/
theorem channel_cap_selection :
    (∀ (channels : List String) (m : Nat), m ≠ 0 →
        channelsToPlot (orderedChannels channels) (some m)
          = ((categorize_channels channels).eeg ++ (categorize_channels channels).ecg
              ++ (categorize_channels channels).reference).take m)
    ∧ (∀ channels : List String,
        channelsToPlot (orderedChannels channels) none
          = (categorize_channels channels).eeg ++ (categorize_channels channels).ecg
              ++ (categorize_channels channels).reference)
    ∧ (∀ (channels dataCols : List String) (mc : Option Nat) (fig : Fig),
        create_interactive_plot channels dataCols mc = Except.ok fig →
          fig.channels = channelsToPlot (orderedChannels channels) mc)
    ∧ (∀ (channels dataCols : List String) (mc : Option Nat),
        create_interactive_plot channels dataCols mc
            = Except.error "No valid channels found to plot"
          ↔ channelsToPlot (orderedChannels channels) mc = [])
    ∧ (create_interactive_plot
          ((List.range 25).map (fun i => "E" ++ toString i)
            ++ (List.range 10).map (fun i => "X1_LEOG" ++ toString i)
            ++ (List.range 5).map (fun i => "CM" ++ toString i)) [] (some 30)).toOption.map
          Fig.channels
        = some ((List.range 25).map (fun i => "E" ++ toString i)
            ++ ((List.range 10).map (fun i => "X1_LEOG" ++ toString i)).take 5)
    ∧ (computeChannels ["Time", "Trigger", "Event", "Comments"] = []
        ∧ create_interactive_plot (computeChannels ["Time", "Trigger", "Event", "Comments"])
            [] (some 30)
          = Except.error "No valid channels found to plot") := by
  refine ⟨?_, fun channels => rfl, ?_, create_error_iff, by decide, by decide, rfl⟩
  · intro channels m hm
    simp [channelsToPlot, orderedChannels, hm]
  · intro channels dataCols mc fig h
    rw [create_ok channels dataCols mc fig h]

/-- Instantiation of `channel_cap_selection`: with classified channels
`["Fp1", "X1_LEOG", "CMX"]` (one of each category) and cap 2, exactly the
first two of the EEG-ECG-Reference order are selected. -/
theorem channel_cap_selection_witness :
    channelsToPlot (orderedChannels ["Fp1", "X1_LEOG", "CMX"]) (some 2)
      = ["Fp1", "X1_LEOG"] := by
  rw [channel_cap_selection.1 ["Fp1", "X1_LEOG", "CMX"] 2 (by decide)]
  decide

theorem buildTraces_color (chans dataCols : List String) :
    ∀ t ∈ buildTraces chans dataCols,
      t.color = colors.getD ((t.row - 1) % colors.length) "" := by
  intro t ht
  unfold buildTraces at ht
  obtain ⟨p, hp, hf⟩ := List.mem_filterMap.1 ht
  by_cases hc : dataCols.contains p.2
  · rw [if_pos hc] at hf
    injection hf with hf
    rw [← hf]
    simp
  · rw [if_neg hc] at hf
    exact absurd hf (by simp)

/-- C8. Trace-color determinism: the palette (Set1 followed by Set2) has
17 colors, every trace of a built figure is colored by the palette indexed
with `(row_index - 1) mod 17` — a pure function of the panel position — and
two builds over the same selected channel order (and dataframe columns)
produce identical traces, hence identical per-channel colors. -/
theorem trace_color_det :
    colors.length = 17
    ∧ ∀ (channels dataCols : List String) (mc : Option Nat) (fig : Fig),
        create_interactive_plot channels dataCols mc = Except.ok fig →
          (∀ t ∈ fig.traces, t.color = colors.getD ((t.row - 1) % colors.length) "")
          ∧ ∀ (channels2 : List String) (mc2 : Option Nat) (fig2 : Fig),
              create_interactive_plot channels2 dataCols mc2 = Except.ok fig2 →
              channelsToPlot (orderedChannels channels2) mc2
                = channelsToPlot (orderedChannels channels) mc →
              fig2.traces = fig.traces := by
  refine ⟨by decide, ?_⟩
  intro channels dataCols mc fig h
  have hfig := create_ok channels dataCols mc fig h
  constructor
  · intro t ht
    rw [hfig] at ht
    exact buildTraces_color _ dataCols t ht
  · intro channels2 mc2 fig2 h2 hsel
    have hfig2 := create_ok channels2 dataCols mc2 fig2 h2
    rw [hfig, hfig2, hsel]

/-- Instantiation of `trace_color_det`: the single trace built for channel
`"Fp1"` on row 1 carries the first palette color. -/
theorem trace_color_det_witness :
    Trace.color { row := 1, name := "Fp1", color := "rgb(228,26,28)" }
      = colors.getD ((Trace.row { row := 1, name := "Fp1", color := "rgb(228,26,28)" } - 1)
          % colors.length) "" := by
  have h := (trace_color_det.2 ["Fp1"] ["Fp1"] none
      { channels := ["Fp1"], height := 250,
        traces := [{ row := 1, name := "Fp1", color := "rgb(228,26,28)" }] } rfl).1
  exact h { row := 1, name := "Fp1", color := "rgb(228,26,28)" } (by decide)

/-- C9. Canvas height formula: every built figure has total height
`150 * n_channels + 100`; in particular 5 selected channels give height
850. -/
theorem canvas_height :
    (∀ (channels dataCols : List String) (mc : Option Nat) (fig : Fig),
        create_interactive_plot channels dataCols mc = Except.ok fig →
          fig.height = 150 * fig.channels.length + 100)
    ∧ (create_interactive_plot ["a", "b", "c", "d", "e"] [] none).toOption.map Fig.height
        = some 850
    ∧ (create_interactive_plot ["a", "b", "c", "d", "e"] [] none).toOption.map
        (fun fig => fig.channels.length) = some 5 := by
  refine ⟨?_, by decide, by decide⟩
  intro channels dataCols mc fig h
  rw [create_ok channels dataCols mc fig h]

/-- Instantiation of `canvas_height` on a concrete 5-channel build: height
850 = 150 * 5 + 100. -/
theorem canvas_height_witness :
    Fig.height { channels := ["a", "b", "c", "d", "e"], height := 850, traces := [] }
      = 150 * (List.length ["a", "b", "c", "d", "e"]) + 100 := by
  exact canvas_height.1 ["a", "b", "c", "d", "e"] [] none
    { channels := ["a", "b", "c", "d", "e"], height := 850, traces := [] } rfl

/-- C10. A channel cap of 0 is treated as unset (`0` is falsy in the
`if max_channels` guard): for a non-empty classified channel list the
selection with cap 0 is the full EEG++ECG++Reference list, the build with
cap 0 equals the build with a null cap, and no empty-channel error is
raised. -/
theorem zero_cap_unset :
    ∀ channels dataCols : List String,
      orderedChannels channels ≠ [] →
        channelsToPlot (orderedChannels channels) (some 0) = orderedChannels channels
        ∧ create_interactive_plot channels dataCols (some 0)
            = create_interactive_plot channels dataCols none
        ∧ ∃ fig, create_interactive_plot channels dataCols (some 0) = Except.ok fig := by
  intro channels dataCols hne
  have hsel : channelsToPlot (orderedChannels channels) (some 0)
      = orderedChannels channels := by
    simp [channelsToPlot]
  have hlen : ¬((channelsToPlot (orderedChannels channels) (some 0)).length = 0) := by
    rw [hsel]
    exact fun h => hne (List.length_eq_zero.mp h)
  refine ⟨hsel, rfl,
    ⟨{ channels := channelsToPlot (orderedChannels channels) (some 0)
       height := 150 * (channelsToPlot (orderedChannels channels) (some 0)).length + 100
       traces := buildTraces (channelsToPlot (orderedChannels channels) (some 0)) dataCols },
     ?_⟩⟩
  simp only [create_interactive_plot]
  rw [if_neg hlen]

/-- Instantiation of `zero_cap_unset` at the one-channel list `["Fp1"]`. -/
theorem zero_cap_unset_witness :
    channelsToPlot (orderedChannels ["Fp1"]) (some 0) = orderedChannels ["Fp1"]
    ∧ create_interactive_plot ["Fp1"] [] (some 0)
        = create_interactive_plot ["Fp1"] [] none := by
  have h := zero_cap_unset ["Fp1"] [] (by decide)
  exact ⟨h.1, h.2.1⟩

/-! Loading (`EEGPlotter.__init__` and `parse_eeg_csv` as a whole) -/

/-- The loaded dataframe, reduced to what the claims are about: its column
names. -/
structure Frame where
  columns : List String
deriving DecidableEq, Repr

/-- The mutable fields of `EEGPlotter`. -/
structure PlotterState where
  data : Option Frame
  channels : List String
  sample_rate : ℚ
deriving DecidableEq, Repr

/-- Initial state per `EEGPlotter.__init__`: `data = None`,
`channels = []`, `sample_rate = 200`. -/
def initPlotter : PlotterState :=
  { data := none, channels := [], sample_rate := 200 }

/-- The load operation `parse_eeg_csv` on the state: scan the lines for sample rate and header;
with no header, raise (`ValueError`) leaving `data` untouched; otherwise
load the dataframe from the header line, normalize the column names and
compute the retained channels.  Returns the post-call state together with
the outcome. -/
def parse_eeg_csv (st : PlotterState) (lines : List String) :
    PlotterState × Except String Unit :=
  let scanned := scanMeta lines st.sample_rate 0
  let st1 := { st with sample_rate := scanned.2 }
  match scanned.1 with
  | none => (st1, Except.error "Could not find header line starting with 'Time'")
  | some i =>
    let cols := (pySplit ',' (lines.getD i "")).map cleanCol
    ({ st1 with data := some { columns := cols }, channels := computeChannels cols },
     Except.ok ())

theorem scanMeta_none (lines : List String) (sr : ℚ) (k : Nat)
    (h : ∀ l ∈ lines, headerLine l = false) :
    (scanMeta lines sr k).1 = none := by
  induction lines generalizing sr k with
  | nil => rfl
  | cons l ls ih =>
    have hl := h l (List.mem_cons_self l ls)
    simp only [scanMeta, hl, Bool.false_eq_true, if_false]
    exact ih (updateSampleRate sr l) (k + 1) (fun x hx => h x (List.mem_cons_of_mem l hx))

/-- C6. Missing header is fatal and atomic: when no input line satisfies
the header predicate, the load raises the "no header" error and the dataset
field is still unset (`None`) at that point — no partial dataset is
exposed. -/
theorem missing_header_fatal :
    ∀ lines : List String,
      (∀ l ∈ lines, headerLine l = false) →
        (parse_eeg_csv initPlotter lines).2
            = Except.error "Could not find header line starting with 'Time'"
        ∧ (parse_eeg_csv initPlotter lines).1.data = none := by
  intro lines h
  have hscan := scanMeta_none lines (initPlotter.sample_rate) 0 h
  simp only [parse_eeg_csv, hscan]
  exact ⟨trivial, rfl⟩

/-- Instantiation of `missing_header_fatal` on a two-line input with no
header line. -/
theorem missing_header_fatal_witness :
    (parse_eeg_csv initPlotter ["junk", "0,1,2"]).2
        = Except.error "Could not find header line starting with 'Time'"
    ∧ (parse_eeg_csv initPlotter ["junk", "0,1,2"]).1.data = none := by
  exact missing_header_fatal ["junk", "0,1,2"] (by decide)

/-! Selection callback (`update_output`, lines 263–270)

The Dash `selectedData` argument is modelled by its shape: Python `None`, or
a dict that may hold a `"range"` entry (itself possibly holding an `"x"`
pair) and possibly further keys.  Python truthiness makes `None` and the
empty dict falsy.  The two-decimal `f"{v:.2f}"` formatting is modelled on
rationals with correctly-rounded (half-to-even) output. -/

/-- The value of the `"range"` key: a dict possibly holding `"x"`, a pair of
floats. -/
structure RangeDict where
  x : Option (ℚ × ℚ)
deriving DecidableEq

/-- The callback argument: Python `None`, or a dict with an optional
`"range"` entry and a flag recording whether any other key is present. -/
inductive SelectedData where
  | null : SelectedData
  | dict : Option RangeDict → Bool → SelectedData
deriving DecidableEq

/-- Python truthiness of the callback argument: `None` and `{}` are falsy,
any non-empty dict is truthy. -/
def pyTruthy : SelectedData → Bool
  | .null => false
  | .dict r extra => r.isSome || extra

/-- Round half to even of the fraction `n / d` (for `d ≠ 0`). -/
def roundHalfEven (n : ℤ) (d : ℕ) : ℤ :=
  let f := Int.fdiv n d
  let r := n - f * d
  if 2 * r < (d : ℤ) then f
  else if (d : ℤ) < 2 * r then f + 1
  else if f % 2 = 0 then f else f + 1

/-- Two-decimal fixed-point formatting `f"{v:.2f}"` of a rational. -/
def fmt2 (q : ℚ) : String :=
  let n := roundHalfEven (q.num * 100) q.den
  let a := n.natAbs
  (if n < 0 then "-" else "") ++ toString (a / 100) ++ "."
    ++ (if a % 100 < 10 then "0" ++ toString (a % 100) else toString (a % 100))

/-- The Dash callback `update_output`: falsy argument → "No region
selected."; a dict holding `range.x` → the formatted window; any other
(truthy) argument falls through the `elif`, returning Python `None`. -/
def update_output (selected_data : SelectedData) : Option String :=
  if !pyTruthy selected_data then some "No region selected."
  else
    match selected_data with
    | .dict (some r) _ =>
      match r.x with
      | some (xmin, xmax) =>
        some ("Selected time window: " ++ fmt2 xmin ++ "–" ++ fmt2 xmax ++ " seconds")
      | none => none
    | _ => none

/-- C4 counterexample. The claim says every event without a usable
x-range yields `"No region selected."`; but a *truthy* event with a
`"range"` entry lacking `"x"` falls through the `elif` and the callback
returns `None` (no message), not `"No region selected."`. -/
theorem update_output_counterexample :
    pyTruthy (SelectedData.dict (some { x := none }) false) = true
    ∧ update_output (SelectedData.dict (some { x := none }) false) = none
    ∧ update_output (SelectedData.dict (some { x := none }) false)
        ≠ some "No region selected." := by
  decide

/-- C4 (amended). Selection interpretation: a falsy event (`None` or the
empty dict) yields `"No region selected."`; an event carrying `range.x`
yields the en-dash two-decimal window string; a truthy event without a
usable x-range (no `"range"` key, or a `"range"` without `"x"`) yields no
message (Python `None`).  The concrete examples hold:
`{range:{x:[1.005, 2.004]}}` gives `"Selected time window: 1.00–2.00
seconds"`, and `None` and `{}` both give `"No region selected."`. -/
theorem update_output_amended :
    (∀ e : SelectedData, pyTruthy e = false →
        update_output e = some "No region selected.")
    ∧ (∀ (rd : RangeDict) (b : Bool) (xmin xmax : ℚ), rd.x = some (xmin, xmax) →
        update_output (SelectedData.dict (some rd) b)
          = some ("Selected time window: " ++ fmt2 xmin ++ "–" ++ fmt2 xmax ++ " seconds"))
    ∧ (∀ b : Bool, b = true →
        update_output (SelectedData.dict none b) = none)
    ∧ (∀ (rd : RangeDict) (b : Bool), rd.x = none →
        update_output (SelectedData.dict (some rd) b) = none)
    ∧ update_output SelectedData.null = some "No region selected."
    ∧ update_output (SelectedData.dict none false) = some "No region selected."
    ∧ update_output
        (SelectedData.dict (some { x := some (mkRat 1005 1000, mkRat 2004 1000) }) false)
        = some "Selected time window: 1.00–2.00 seconds" := by
  refine ⟨?_, ?_, ?_, ?_, by decide, by decide, by decide⟩
  · intro e he
    unfold update_output
    rw [he]
    rfl
  · intro rd b xmin xmax hx
    unfold update_output
    simp [pyTruthy, hx]
  · intro b hb
    subst hb
    rfl
  · intro rd b hx
    unfold update_output
    simp [pyTruthy, hx]

/-- Instantiation of `update_output_amended`: the `null` event and the
concrete range `[1.005, 2.004]` produce the specified strings. -/
theorem update_output_amended_witness :
    update_output SelectedData.null = some "No region selected."
    ∧ update_output
        (SelectedData.dict (some { x := some (mkRat 1005 1000, mkRat 2004 1000) }) false)
        = some ("Selected time window: " ++ fmt2 (mkRat 1005 1000) ++ "–"
            ++ fmt2 (mkRat 2004 1000) ++ " seconds") := by
  exact ⟨update_output_amended.1 SelectedData.null (by decide),
    update_output_amended.2.1 { x := some (mkRat 1005 1000, mkRat 2004 1000) } false
      (mkRat 1005 1000) (mkRat 2004 1000) rfl⟩

